import Mathlib

/-!
Shallow embedding of `jupyterhub/scopes.py`: scope-grant parsing
(`parse_scopes`), effective-scope resolution for principals and tokens
(`get_scopes_for`), the per-scope authorization check (`_check_scope` with
its helpers `_needs_scope_expansion` and `_check_user_in_expanded_scope`),
and the `needs_scope` enforcement decorator (`_auth_func`).

Python dicts are modelled as ordered association lists (first occurrence of
a key is the binding, as all lists built here have unique keys); Python
sets are modelled as `Finset String`; a function that may `raise
web.HTTPError(status)` returns `CheckResult.httpError status` instead of
`CheckResult.ok bool`.
-/

namespace JupyterHubScopes

/-- The grant attached to one scope name in a parsed scope map: the Python
code stores either the enum sentinel `Scope.ALL` or a dict from filter key
to list of allowed values. -/
inductive ScopeGrant where
  | ALL : ScopeGrant
  | filtered : List (String × List String) → ScopeGrant
deriving DecidableEq, Repr

/-- Python dict lookup `d[k]` / `k in d` on an association list: the first
binding of `k`, if any. -/
def getKey {β : Type} (d : List (String × β)) (k : String) : Option β :=
  match d with
  | [] => none
  | (k1, v1) :: rest => if k1 = k then some v1 else getKey rest k

/-- Python dict assignment `d[k] = v`: replace the first binding of `k` in
place, otherwise append a new binding at the end (ordered-dict insertion
semantics). -/
def setKey {β : Type} (d : List (String × β)) (k : String) (v : β) : List (String × β) :=
  match d with
  | [] => [(k, v)]
  | (k1, v1) :: rest => if k1 = k then (k, v) :: rest else (k1, v1) :: setKey rest k v

/-- `str.partition(sep)` on the character list: split at the first
occurrence of `sep`; when `sep` is absent the second component is empty,
exactly as Python's empty third component. -/
def splitFirst (sep : Char) : List Char → List Char × List Char
  | [] => ([], [])
  | c :: rest =>
    if c = sep then ([], rest)
    else
      let r := splitFirst sep rest
      (c :: r.1, r.2)

/-- `s.partition(sep)` keeping only the parts before and after the first
separator (the Python code only ever tests the third component for
emptiness, which coincides with our second component being empty). -/
def strPartition (s : String) (sep : Char) : String × String :=
  let r := splitFirst sep s.toList
  (String.mk r.1, String.mk r.2)

/-- `parsed_scopes[base_scope][key].append(val)` preceded by
`parsed_scopes[base_scope][key] = []` when `key` is absent: append `val`
to the list at `key`, creating the entry at the end on first use. -/
def addFilter (sub : List (String × List String)) (key val : String) :
    List (String × List String) :=
  match sub with
  | [] => [(key, [val])]
  | (k1, vs) :: rest =>
    if k1 = key then (k1, vs ++ [val]) :: rest else (k1, vs) :: addFilter rest key val

/-- One iteration of the `for scope in scope_list` loop of `parse_scopes`. -/
def parseStep (parsed : List (String × ScopeGrant)) (scope : String) :
    List (String × ScopeGrant) :=
  let base_scope := (strPartition scope '!').1
  let filter_ := (strPartition scope '!').2
  let parsed1 :=
    if filter_ = "" then setKey parsed base_scope ScopeGrant.ALL
    else if (getKey parsed base_scope).isNone then
      setKey parsed base_scope (ScopeGrant.filtered [])
    else parsed
  match getKey parsed1 base_scope with
  | some (ScopeGrant.filtered sub) =>
    let kv := strPartition filter_ '='
    setKey parsed1 base_scope (ScopeGrant.filtered (addFilter sub kv.1 kv.2))
  | _ => parsed1

/-- `parse_scopes(scope_list)`: fold the per-grant step over the input in
order, starting from the empty dict. -/
def parse_scopes (scope_list : List String) : List (String × ScopeGrant) :=
  scope_list.foldl parseStep []

/-- An API token together with what the external `roles.get_scopes_for`
accessor returns for the token itself and for its owner (`token.user or
token.service`). -/
structure APIToken where
  token_scopes : Finset String
  owner_scopes : Finset String
deriving DecidableEq

/-- A principal handed to `get_scopes_for`: an `orm.APIToken`, or any other
user/service object, for which the external accessor returns its role
scopes directly. -/
inductive OrmObject where
  | token : APIToken → OrmObject
  | plain : Finset String → OrmObject
deriving DecidableEq

/-- `get_scopes_for(orm_object)`: `None` yields the empty set; a token
yields its scopes unioned with the owner's when the sentinel `"all"` is
present, then intersected with the owner's; anything else yields its own
role scopes.  (The `discarded_token_scopes` computation only feeds a log
warning and is omitted.) -/
def get_scopes_for (orm_object : Option OrmObject) : Finset String :=
  match orm_object with
  | none => ∅
  | some (OrmObject.token t) =>
    let token_scopes :=
      if "all" ∈ t.token_scopes then t.token_scopes ∪ t.owner_scopes else t.token_scopes
    token_scopes ∩ t.owner_scopes
  | some (OrmObject.plain s) => s

/-- A user record as group expansion sees it: just its group names. -/
structure User where
  groups : List String
deriving DecidableEq

/-- The slice of the API handler the checks read: `find_user` and the
request-cached `parsed_scopes`.  (`request.path` feeds only log messages
and is omitted.) -/
structure Handler where
  find_user : String → Option User
  parsed_scopes : List (String × ScopeGrant)

/-- Outcome of a Python function that returns a bool or raises
`web.HTTPError(status)`. -/
inductive CheckResult where
  | ok : Bool → CheckResult
  | httpError : Nat → CheckResult
deriving DecidableEq, Repr

/-- `_needs_scope_expansion(filter_, filter_value, sub_scope)`: expansion
applies only for the `user` key when the grant has a `group` entry, and
then only when `filter_value` is not already in the grant's `user` list
(or the grant has no `user` entry at all). -/
def needs_scope_expansion (filter_ filter_value : String)
    (sub_scope : List (String × List String)) : Bool :=
  if ¬ (filter_ = "user" ∧ (getKey sub_scope "group").isSome) then false
  else
    match getKey sub_scope "user" with
    | some users => decide (filter_value ∉ users)
    | none => true

/-- `_check_user_in_expanded_scope(handler, user_name, scope_group_names)`:
raise 404 when the user cannot be found, otherwise report whether the
allowed group names intersect the user's group names. -/
def check_user_in_expanded_scope (handler : Handler) (user_name : String)
    (scope_group_names : List String) : CheckResult :=
  match handler.find_user user_name with
  | none => CheckResult.httpError 404
  | some user => CheckResult.ok (decide (∃ g ∈ scope_group_names, g ∈ user.groups))

/-- The direct-match test `filter_ in sub_scope and filter_value in
sub_scope[filter_]`. -/
def directMatch (sub_scope : List (String × List String)) (filter_ filter_value : String) :
    Bool :=
  match getKey sub_scope filter_ with
  | some vs => decide (filter_value ∈ vs)
  | none => false

/-- The `for (filter_, filter_value) in kwargs.items()` loop in
`_check_scope`, ending in `raise HTTPError(404)` when no rule matched. -/
def scopeLoop (handler : Handler) (sub_scope : List (String × List String)) :
    List (String × String) → CheckResult
  | [] => CheckResult.httpError 404
  | (filter_, filter_value) :: rest =>
    if directMatch sub_scope filter_ filter_value then CheckResult.ok true
    else if needs_scope_expansion filter_ filter_value sub_scope then
      match check_user_in_expanded_scope handler filter_value
          ((getKey sub_scope "group").getD []) with
      | CheckResult.httpError e => CheckResult.httpError e
      | CheckResult.ok true => CheckResult.ok true
      | CheckResult.ok false => scopeLoop handler sub_scope rest
    else scopeLoop handler sub_scope rest

/-- The composite-key normalization at the top of `_check_scope`: when the
context has both `user` and `server`, `kwargs['server']` is rewritten to
`"{user}/{server}"`. -/
def normalizeKwargs (kwargs : List (String × String)) : List (String × String) :=
  match getKey kwargs "user", getKey kwargs "server" with
  | some u, some s => setKey kwargs "server" (u ++ "/" ++ s)
  | _, _ => kwargs

/-- `_check_scope(api_handler, req_scope, **kwargs)`: normalize the context,
deny (`False`) when the scope is absent, allow on `Scope.ALL` or on an
empty context, otherwise run the filter loop. -/
def check_scope (handler : Handler) (req_scope : String)
    (kwargs0 : List (String × String)) : CheckResult :=
  let kwargs := normalizeKwargs kwargs0
  match getKey handler.parsed_scopes req_scope with
  | none => CheckResult.ok false
  | some ScopeGrant.ALL => CheckResult.ok true
  | some (ScopeGrant.filtered sub_scope) =>
    if kwargs = [] then CheckResult.ok true
    else scopeLoop handler sub_scope kwargs

/-- Outcome of one call through the `needs_scope` decorator: the wrapped
function runs, or an `HTTPError` is raised. -/
inductive CallOutcome where
  | invoked : CallOutcome
  | httpError : Nat → CallOutcome
deriving DecidableEq, Repr

/-- The `for scope in scopes: has_access |= _check_scope(...)` loop of
`_auth_func`: every scope is checked (no short-circuit), the booleans are
OR-ed, and an exception raised by any check propagates immediately. -/
def authLoop (handler : Handler) (kwargs : List (String × String)) :
    List String → Bool → CheckResult
  | [], acc => CheckResult.ok acc
  | s :: rest, acc =>
    match check_scope handler s kwargs with
    | CheckResult.httpError e => CheckResult.httpError e
    | CheckResult.ok b => authLoop handler kwargs rest (acc || b)

/-- `_auth_func` after argument binding: run every required-scope check,
invoke the wrapped function when the OR of the results is true, otherwise
raise 403; a 404 raised by a check propagates as-is. -/
def needs_scope_call (handler : Handler) (scopes : List String)
    (kwargs : List (String × String)) : CallOutcome :=
  match authLoop handler kwargs scopes false with
  | CheckResult.httpError e => CallOutcome.httpError e
  | CheckResult.ok true => CallOutcome.invoked
  | CheckResult.ok false => CallOutcome.httpError 403

/-- The request-scoped scope cache on the handler: `raw_scopes` and
`parsed_scopes` attributes, absent until first set. -/
structure AuthCache where
  raw_scopes : Option (List String)
  parsed_scopes : Option (List (String × ScopeGrant))
deriving DecidableEq

/-- The `if not hasattr(self, 'raw_scopes')` block of `_auth_func`: when
the `raw_scopes` attribute is absent, set both `raw_scopes` and
`parsed_scopes` to empty; otherwise leave the handler untouched. -/
def load_scopes (c : AuthCache) : AuthCache :=
  match c.raw_scopes with
  | none => { raw_scopes := some [], parsed_scopes := some [] }
  | some _ => c

theorem getKey_setKey_self {β : Type} (d : List (String × β)) (k : String) (v : β) :
    getKey (setKey d k v) k = some v := by
  induction d with
  | nil => simp [setKey, getKey]
  | cons p rest ih =>
    obtain ⟨k1, v1⟩ := p
    by_cases h : k1 = k
    · simp [setKey, getKey, h]
    · simp [setKey, getKey, h, ih]

theorem getKey_setKey_ne {β : Type} (d : List (String × β)) (k k' : String) (v : β)
    (h : k' ≠ k) : getKey (setKey d k v) k' = getKey d k' := by
  induction d with
  | nil => simp [setKey, getKey, Ne.symm h]
  | cons p rest ih =>
    obtain ⟨k1, v1⟩ := p
    by_cases h1 : k1 = k
    · subst h1
      simp [setKey, getKey, Ne.symm h]
    · simp [setKey, getKey, h1, ih]

theorem setKey_ne_nil {β : Type} (d : List (String × β)) (k : String) (v : β) :
    setKey d k v ≠ [] := by
  cases d with
  | nil => simp [setKey]
  | cons p rest =>
    obtain ⟨k1, v1⟩ := p
    simp only [setKey]
    split <;> simp

theorem normalizeKwargs_ne_nil (kwargs : List (String × String)) (h : kwargs ≠ []) :
    normalizeKwargs kwargs ≠ [] := by
  unfold normalizeKwargs
  split
  · exact setKey_ne_nil _ _ _
  · exact h

theorem check_user_error_404 (handler : Handler) (u : String) (groups : List String)
    (e : Nat) (h : check_user_in_expanded_scope handler u groups = CheckResult.httpError e) :
    e = 404 := by
  unfold check_user_in_expanded_scope at h
  rcases hfu : handler.find_user u with _ | usr
  · rw [hfu] at h
    simp only [CheckResult.httpError.injEq] at h
    exact h.symm
  · rw [hfu] at h
    simp at h

theorem scopeLoop_ok_or_404 (handler : Handler) (sub : List (String × List String))
    (l : List (String × String)) :
    scopeLoop handler sub l = CheckResult.ok true ∨
    scopeLoop handler sub l = CheckResult.httpError 404 := by
  induction l with
  | nil => exact Or.inr rfl
  | cons p rest ih =>
    obtain ⟨f, v⟩ := p
    simp only [scopeLoop]
    split
    · exact Or.inl rfl
    · split
      · rcases hcu : check_user_in_expanded_scope handler v ((getKey sub "group").getD [])
          with b | e
        · cases b
          · simpa [hcu] using ih
          · simp [hcu]
        · right
          simp [hcu, check_user_error_404 handler v _ e hcu]
      · exact ih

theorem check_scope_absent (handler : Handler) (req : String)
    (kwargs : List (String × String)) (h : getKey handler.parsed_scopes req = none) :
    check_scope handler req kwargs = CheckResult.ok false := by
  simp [check_scope, h]

theorem check_scope_all (handler : Handler) (req : String)
    (kwargs : List (String × String))
    (h : getKey handler.parsed_scopes req = some ScopeGrant.ALL) :
    check_scope handler req kwargs = CheckResult.ok true := by
  simp [check_scope, h]

theorem check_scope_filtered (handler : Handler) (req : String)
    (kwargs : List (String × String)) (sub : List (String × List String))
    (h : getKey handler.parsed_scopes req = some (ScopeGrant.filtered sub)) :
    check_scope handler req kwargs =
      if normalizeKwargs kwargs = [] then CheckResult.ok true
      else scopeLoop handler sub (normalizeKwargs kwargs) := by
  simp [check_scope, h]

/-- C7: whenever the required scope name is present in the parsed permission
map — with either an `Unrestricted` (`Scope.ALL`) or a `Filtered` grant —
`_check_scope` with an empty request context returns `True`: an empty
context never denies and never raises the 404 "resource not found" error. -/
theorem check_scope_empty_context_allows (handler : Handler) (req : String)
    (g : ScopeGrant) (h : getKey handler.parsed_scopes req = some g) :
    check_scope handler req [] = CheckResult.ok true := by
  cases g <;> simp [check_scope, h, normalizeKwargs, getKey]

def c7Handler : Handler := ⟨fun _ => none, [("s", ScopeGrant.ALL)]⟩

theorem check_scope_empty_context_allows_witness :
    check_scope c7Handler "s" [] = CheckResult.ok true :=
  check_scope_empty_context_allows c7Handler "s" ScopeGrant.ALL (by decide)

/-- C5: `_check_scope` returns the boolean `False` exactly when the required
scope name is absent from the permission map, whatever the request context;
and when the scope is present with a `Filtered` grant and the context is
non-empty, the check either allows or raises the 404 "resource not found"
error — exhausting all context entries without a match never produces a
plain boolean deny. -/
theorem check_scope_false_iff_absent (handler : Handler) (req : String)
    (kwargs : List (String × String)) :
    (check_scope handler req kwargs = CheckResult.ok false ↔
      getKey handler.parsed_scopes req = none)
    ∧ (∀ sub, getKey handler.parsed_scopes req = some (ScopeGrant.filtered sub) →
        kwargs ≠ [] →
        check_scope handler req kwargs = CheckResult.ok true ∨
        check_scope handler req kwargs = CheckResult.httpError 404) := by
  constructor
  · constructor
    · intro hfalse
      rcases hk : getKey handler.parsed_scopes req with _ | g
      · rfl
      · exfalso
        cases g with
        | ALL =>
          rw [check_scope_all handler req kwargs hk] at hfalse
          simp at hfalse
        | filtered sub =>
          rw [check_scope_filtered handler req kwargs sub hk] at hfalse
          split at hfalse
          · simp at hfalse
          · rcases scopeLoop_ok_or_404 handler sub (normalizeKwargs kwargs) with h1 | h1 <;>
              rw [h1] at hfalse <;> simp at hfalse
    · intro h
      exact check_scope_absent handler req kwargs h
  · intro sub hsub hne
    rw [check_scope_filtered handler req kwargs sub hsub,
      if_neg (normalizeKwargs_ne_nil kwargs hne)]
    exact scopeLoop_ok_or_404 handler sub (normalizeKwargs kwargs)

def c5Handler : Handler := ⟨fun _ => none, [("s", ScopeGrant.filtered [("x", ["1"])])]⟩

theorem check_scope_false_iff_absent_witness :
    check_scope c5Handler "s" [("y", "2")] = CheckResult.ok true ∨
    check_scope c5Handler "s" [("y", "2")] = CheckResult.httpError 404 :=
  (check_scope_false_iff_absent c5Handler "s" [("y", "2")]).2 [("x", ["1"])]
    (by decide) (by decide)

/-- C9: `get_scopes_for(None)` returns the empty scope set rather than
failing, and a handler whose cached scopes are the parse of that empty set
makes every downstream `_check_scope` return the plain boolean deny `False`
(the absent-scope outcome), for every required scope and context. -/
theorem get_scopes_for_none_empty :
    get_scopes_for none = (∅ : Finset String)
    ∧ ∀ (fu : String → Option User) (req : String) (kwargs : List (String × String)),
        check_scope ⟨fu, parse_scopes []⟩ req kwargs = CheckResult.ok false := by
  refine ⟨rfl, fun fu req kwargs => ?_⟩
  exact check_scope_absent _ req kwargs rfl

/-- C3: for a token principal, `get_scopes_for` returns exactly the
intersection of the token's scopes with the owner's scopes, where the
token's scopes are first unioned with the owner's precisely when they
contain the sentinel `"all"`; hence the result is always a subset of the
owner's scopes, and it is empty whenever `"all"` is absent and the token's
scopes share no element with the owner's. -/
theorem get_scopes_for_token_spec (t : APIToken) :
    get_scopes_for (some (OrmObject.token t)) =
      (if "all" ∈ t.token_scopes then t.token_scopes ∪ t.owner_scopes
        else t.token_scopes) ∩ t.owner_scopes
    ∧ get_scopes_for (some (OrmObject.token t)) ⊆ t.owner_scopes
    ∧ ("all" ∉ t.token_scopes → t.token_scopes ∩ t.owner_scopes = ∅ →
        get_scopes_for (some (OrmObject.token t)) = ∅) := by
  refine ⟨rfl, Finset.inter_subset_right, ?_⟩
  intro hall hdisj
  show (if "all" ∈ t.token_scopes then t.token_scopes ∪ t.owner_scopes
    else t.token_scopes) ∩ t.owner_scopes = ∅
  rw [if_neg hall]
  exact hdisj

theorem get_scopes_for_token_spec_witness :
    get_scopes_for (some (OrmObject.token ⟨{"x"}, {"y"}⟩)) = (∅ : Finset String) :=
  (get_scopes_for_token_spec ⟨{"x"}, {"y"}⟩).2.2 (by decide) (by decide)

/-- C6: `_needs_scope_expansion` triggers exactly when the context key is
`"user"`, the grant has a `"group"` entry, and the context value is not
already in the grant's `"user"` list (vacuously so when there is no
`"user"` entry); and `_check_user_in_expanded_scope` raises the 404
"resource not found" error when the user name cannot be resolved, and
otherwise allows precisely when the user belongs to at least one group
named in the grant's `"group"` list. -/
theorem scope_expansion_spec (filter_ filter_value : String)
    (sub_scope : List (String × List String)) :
    (needs_scope_expansion filter_ filter_value sub_scope = true ↔
      (filter_ = "user" ∧ (getKey sub_scope "group").isSome = true ∧
        ∀ users, getKey sub_scope "user" = some users → filter_value ∉ users))
    ∧ ∀ (handler : Handler) (groups : List String),
        (handler.find_user filter_value = none →
          check_user_in_expanded_scope handler filter_value groups =
            CheckResult.httpError 404)
        ∧ ∀ u, handler.find_user filter_value = some u →
            (check_user_in_expanded_scope handler filter_value groups =
                CheckResult.ok true ↔
              ∃ g ∈ groups, g ∈ u.groups) := by
  constructor
  · constructor
    · intro hexp
      unfold needs_scope_expansion at hexp
      by_cases hc : filter_ = "user" ∧ ((getKey sub_scope "group").isSome = true)
      · refine ⟨hc.1, hc.2, ?_⟩
        intro users husers
        rw [if_neg (not_not_intro hc), husers] at hexp
        simpa using hexp
      · rw [if_pos hc] at hexp
        simp at hexp
    · rintro ⟨h1, h2, h3⟩
      unfold needs_scope_expansion
      rw [if_neg (not_not_intro ⟨h1, h2⟩)]
      rcases hu : getKey sub_scope "user" with _ | users
      · rfl
      · simpa using h3 users hu
  · intro handler groups
    constructor
    · intro hnone
      unfold check_user_in_expanded_scope
      rw [hnone]
    · intro u hu
      unfold check_user_in_expanded_scope
      rw [hu]
      simp

def c6Handler : Handler :=
  ⟨fun n => if n = "alice" then some (User.mk ["g1", "g2"]) else none, []⟩

theorem scope_expansion_spec_witness :
    check_user_in_expanded_scope c6Handler "alice" ["g1"] = CheckResult.ok true ↔
      ∃ g ∈ ["g1"], g ∈ (User.mk ["g1", "g2"]).groups :=
  ((scope_expansion_spec "user" "alice" []).2 c6Handler ["g1"]).2
    (User.mk ["g1", "g2"]) (by decide)

def c2Handler : Handler := ⟨fun _ => none, parse_scopes ["users:servers!server=bar"]⟩

/-- C2 counterexample: with the permission map parsed from the single grant
`"users:servers!server=bar"` and the bound context `user=u1, server=bar`,
`_check_scope` for `"users:servers"` raises the 404 "resource not found"
error — the call is NOT allowed, because the normalized composite value
`"u1/bar"` fails the membership test against the filter list `["bar"]`. -/
theorem composite_server_claim_false :
    check_scope c2Handler "users:servers" [("user", "u1"), ("server", "bar")] =
      CheckResult.httpError 404
    ∧ check_scope c2Handler "users:servers" [("user", "u1"), ("server", "bar")] ≠
      CheckResult.ok true := by decide

def c2HandlerComposite : Handler :=
  ⟨fun _ => none, parse_scopes ["users:servers!server=u1/bar"]⟩

/-- C2 amended: the context value for `server` is indeed first rewritten to
the composite `"u1/bar"`, but the check for `"users:servers"` against the
grant `"users:servers!server=bar"` then raises the 404 "resource not found"
error rather than allowing; the same call is allowed when the grant's
filter value is the full composite, `"users:servers!server=u1/bar"`. -/
theorem composite_server_spec :
    normalizeKwargs [("user", "u1"), ("server", "bar")] =
      [("user", "u1"), ("server", "u1/bar")]
    ∧ check_scope c2Handler "users:servers" [("user", "u1"), ("server", "bar")] =
      CheckResult.httpError 404
    ∧ check_scope c2HandlerComposite "users:servers"
        [("user", "u1"), ("server", "bar")] = CheckResult.ok true := by decide

theorem splitFirst_not_mem (sep : Char) (l : List Char) (h : sep ∉ l) :
    splitFirst sep l = (l, []) := by
  induction l with
  | nil => rfl
  | cons c rest ih =>
    have hc : ¬ (c = sep) := fun hh => h (by rw [hh]; exact List.mem_cons_self _ _)
    have hr : sep ∉ rest := fun hh => h (List.mem_cons_of_mem _ hh)
    simp only [splitFirst]
    rw [if_neg hc, ih hr]

theorem splitFirst_append_sep (sep : Char) (l : List Char) (h : sep ∉ l) :
    splitFirst sep (l ++ [sep]) = (l, []) := by
  induction l with
  | nil => simp [splitFirst]
  | cons c rest ih =>
    have hc : ¬ (c = sep) := fun hh => h (by rw [hh]; exact List.mem_cons_self _ _)
    have hr : sep ∉ rest := fun hh => h (List.mem_cons_of_mem _ hh)
    rw [List.cons_append]
    simp only [splitFirst]
    rw [if_neg hc, ih hr]

theorem parse_single_bare (g name : String) (hp : strPartition g '!' = (name, "")) :
    parse_scopes [g] = [(name, ScopeGrant.ALL)] := by
  simp [parse_scopes, parseStep, hp, setKey, getKey]

/-- C10: a grant string that is a scope name followed by a bare trailing
`'!'` (empty filter suffix) parses to `Unrestricted` (`Scope.ALL`) for that
scope name, exactly as the bare scope name itself would. -/
theorem trailing_bang_unrestricted (name : String) (h : '!' ∉ name.toList) :
    parse_scopes [name ++ "!"] = [(name, ScopeGrant.ALL)]
    ∧ parse_scopes [name ++ "!"] = parse_scopes [name] := by
  have hmk : String.mk name.toList = name := by
    cases name
    rfl
  have hl : (name ++ "!").toList = name.toList ++ ['!'] := by
    show (name ++ "!").data = name.data ++ ['!']
    rw [String.data_append]
  have h1 : strPartition (name ++ "!") '!' = (name, "") := by
    simp only [strPartition, hl, splitFirst_append_sep '!' name.toList h, hmk]
  have h2 : strPartition name '!' = (name, "") := by
    simp only [strPartition, splitFirst_not_mem '!' name.toList h, hmk]
  rw [parse_single_bare _ _ h1, parse_single_bare _ _ h2]
  exact ⟨rfl, rfl⟩

theorem trailing_bang_unrestricted_witness :
    parse_scopes ["s" ++ "!"] = [("s", ScopeGrant.ALL)] :=
  (trailing_bang_unrestricted "s" (by decide)).1

/-- C8 counterexample: on a handler with no cached scopes, the decorator's
cache block sets both the raw and the parsed scope caches to EMPTY — it
does not resolve the caller's grant strings and does not parse them, so for
a caller whose grants are `["a"]` the cached map is not `parse(["a"])` and
the cached raw grants are not `["a"]`. -/
theorem cache_init_counterexample :
    load_scopes ⟨none, none⟩ = ⟨some [], some []⟩
    ∧ (load_scopes ⟨none, none⟩).parsed_scopes ≠ some (parse_scopes ["a"])
    ∧ (load_scopes ⟨none, none⟩).raw_scopes ≠ some ["a"] := by decide

/-- C8 amended: on the first scope check of a request whose handler lacks
the cached-scope attributes, the wrapper initializes both the raw grant
strings and the permission map to EMPTY containers (it performs no
resolution or parsing — those happen outside the wrapper); when the
attributes are already present it leaves them untouched, so every
subsequent check in the same request reuses the previously cached
values. -/
theorem load_scopes_spec (c : AuthCache) :
    (c.raw_scopes = none → load_scopes c = ⟨some [], some []⟩)
    ∧ (∀ r, c.raw_scopes = some r → load_scopes c = c) := by
  constructor
  · intro h
    unfold load_scopes
    rw [h]
  · intro r h
    unfold load_scopes
    rw [h]

theorem load_scopes_spec_witness :
    load_scopes ⟨none, none⟩ = ⟨some [], some []⟩ :=
  (load_scopes_spec ⟨none, none⟩).1 rfl

theorem parseStep_bare (acc : List (String × ScopeGrant)) (s : String)
    (hf : (strPartition s '!').2 = "") :
    getKey (parseStep acc s) ((strPartition s '!').1) = some ScopeGrant.ALL := by
  simp [parseStep, hf, getKey_setKey_self]

theorem getKey_parseStep_ne (acc : List (String × ScopeGrant)) (s a : String)
    (hb : (strPartition s '!').1 ≠ a) :
    getKey (parseStep acc s) a = getKey acc a := by
  have hne : a ≠ (strPartition s '!').1 := Ne.symm hb
  simp only [parseStep]
  split
  · rw [getKey_setKey_ne _ _ _ _ hne]
    split
    · rw [getKey_setKey_ne _ _ _ _ hne]
    · split
      · rw [getKey_setKey_ne _ _ _ _ hne]
      · rfl
  · split
    · rw [getKey_setKey_ne _ _ _ _ hne]
    · split
      · rw [getKey_setKey_ne _ _ _ _ hne]
      · rfl

theorem parseStep_preserves_ALL (acc : List (String × ScopeGrant)) (s a : String)
    (h : getKey acc a = some ScopeGrant.ALL) :
    getKey (parseStep acc s) a = some ScopeGrant.ALL := by
  by_cases hb : (strPartition s '!').1 = a
  · by_cases hf : (strPartition s '!').2 = ""
    · have hba := parseStep_bare acc s hf
      rwa [hb] at hba
    · have hn : getKey acc (strPartition s '!').1 = some ScopeGrant.ALL := by
        rw [hb]; exact h
      simp [parseStep, hf, hn, h]
  · rw [getKey_parseStep_ne acc s a hb]
    exact h

theorem foldl_parseStep_preserves_ALL (l : List String) (acc : List (String × ScopeGrant))
    (a : String) (h : getKey acc a = some ScopeGrant.ALL) :
    getKey (l.foldl parseStep acc) a = some ScopeGrant.ALL := by
  induction l generalizing acc with
  | nil => exact h
  | cons s rest ih => exact ih _ (parseStep_preserves_ALL acc s a h)

theorem foldl_parseStep_bare (l : List String) (acc : List (String × ScopeGrant))
    (a : String) (h : ∃ s ∈ l, strPartition s '!' = (a, "")) :
    getKey (l.foldl parseStep acc) a = some ScopeGrant.ALL := by
  induction l generalizing acc with
  | nil => simp at h
  | cons s rest ih =>
    rcases h with ⟨g, hg, hpart⟩
    rcases List.mem_cons.mp hg with rfl | hmem
    · have ha : (strPartition g '!').1 = a := by rw [hpart]
      have hf : (strPartition g '!').2 = "" := by rw [hpart]
      have hb := parseStep_bare acc g hf
      rw [ha] at hb
      exact foldl_parseStep_preserves_ALL rest _ a hb
    · exact ih _ ⟨g, hmem, hpart⟩

/-- C4: if any grant string in the input splits into scope name `a` with an
empty filter suffix, then `a` maps to `Unrestricted` (`Scope.ALL`) in the
parsed result, wherever filtered grants for the same name appear in the
input order; in particular `parse_scopes ["a!x=1","a"]` and
`parse_scopes ["a","a!x=1"]` are the same map sending `"a"` to
`Scope.ALL`. -/
theorem parse_scopes_unrestricted_wins (l : List String) (a : String)
    (h : ∃ s ∈ l, strPartition s '!' = (a, "")) :
    getKey (parse_scopes l) a = some ScopeGrant.ALL
    ∧ parse_scopes ["a!x=1", "a"] = parse_scopes ["a", "a!x=1"]
    ∧ parse_scopes ["a!x=1", "a"] = [("a", ScopeGrant.ALL)] :=
  ⟨foldl_parseStep_bare l [] a h, by decide, by decide⟩

theorem parse_scopes_unrestricted_wins_witness :
    getKey (parse_scopes ["b!x=1", "b", "b!y=2"]) "b" = some ScopeGrant.ALL :=
  (parse_scopes_unrestricted_wins ["b!x=1", "b", "b!y=2"] "b"
    ⟨"b", by decide, by decide⟩).1

theorem authLoop_no_error (handler : Handler) (kwargs : List (String × String))
    (scopes : List String) (acc : Bool)
    (hne : ∀ s ∈ scopes, ∀ e, check_scope handler s kwargs ≠ CheckResult.httpError e) :
    authLoop handler kwargs scopes acc =
      CheckResult.ok (acc ||
        scopes.any fun s => decide (check_scope handler s kwargs = CheckResult.ok true)) := by
  induction scopes generalizing acc with
  | nil => simp [authLoop]
  | cons s rest ih =>
    rcases hcs : check_scope handler s kwargs with b | e
    · simp only [authLoop, hcs]
      rw [ih _ (fun t ht e => hne t (List.mem_cons_of_mem _ ht) e)]
      cases b <;> simp [hcs, Bool.or_assoc]
    · exact absurd hcs (hne s (List.mem_cons_self _ _) e)

def c1Handler : Handler := ⟨fun _ => none, parse_scopes ["s1!user=alice", "s2"]⟩

/-- C1 counterexample: the caller holds `s1` filtered to `user=alice` and
`s2` unrestricted; the check for `s2` succeeds, yet the decorated call with
context `user=bob` is not invoked — the `s1` check raises the 404
"resource not found" error before `s2` is ever aggregated, so success of
one listed scope does not guarantee the operation proceeds. -/
theorem needs_scope_or_claim_false :
    check_scope c1Handler "s2" [("user", "bob")] = CheckResult.ok true
    ∧ needs_scope_call c1Handler ["s1", "s2"] [("user", "bob")] ≠ CallOutcome.invoked
    ∧ needs_scope_call c1Handler ["s1", "s2"] [("user", "bob")] =
        CallOutcome.httpError 404 := by
  decide

/-- C1 amended: provided no per-scope check raises an `HTTPError` (in
particular no 404 "resource not found"), the wrapped operation is invoked
exactly when the check succeeds for at least one scope name in the `anyOf`
list; and in particular, when the caller does not hold the first listed
scope at all and holds the second unrestricted, the call is allowed. -/
theorem needs_scope_or_semantics (handler : Handler) (kwargs : List (String × String)) :
    (∀ scopes : List String,
      (∀ s ∈ scopes, ∀ e, check_scope handler s kwargs ≠ CheckResult.httpError e) →
      (needs_scope_call handler scopes kwargs = CallOutcome.invoked ↔
        ∃ s ∈ scopes, check_scope handler s kwargs = CheckResult.ok true))
    ∧ ∀ s1 s2 : String, getKey handler.parsed_scopes s1 = none →
        getKey handler.parsed_scopes s2 = some ScopeGrant.ALL →
        needs_scope_call handler [s1, s2] kwargs = CallOutcome.invoked := by
  constructor
  · intro scopes hne
    unfold needs_scope_call
    rw [authLoop_no_error handler kwargs scopes false hne]
    simp only [Bool.false_or]
    cases hany : scopes.any
        (fun s => decide (check_scope handler s kwargs = CheckResult.ok true)) with
    | false =>
      constructor
      · intro hinv
        simp at hinv
      · intro hex
        rw [List.any_eq_false] at hany
        rcases hex with ⟨s, hs, hok⟩
        exact absurd (by simpa using hok) (hany s hs)
    | true =>
      rw [List.any_eq_true] at hany
      rcases hany with ⟨s, hs, hok⟩
      exact ⟨fun _ => ⟨s, hs, by simpa using hok⟩, fun _ => rfl⟩
  · intro s1 s2 h1 h2
    unfold needs_scope_call
    have hl : authLoop handler kwargs [s1, s2] false = CheckResult.ok true := by
      simp [authLoop, check_scope_absent handler s1 kwargs h1,
        check_scope_all handler s2 kwargs h2]
    rw [hl]

def c1WitHandler : Handler := ⟨fun _ => none, [("s2", ScopeGrant.ALL)]⟩

theorem needs_scope_or_semantics_witness :
    needs_scope_call c1WitHandler ["s1", "s2"] [] = CallOutcome.invoked :=
  (needs_scope_or_semantics c1WitHandler []).2 "s1" "s2" (by decide) (by decide)

example : parse_scopes ["a!x=1", "a"] = [("a", ScopeGrant.ALL)] := by decide
example : parse_scopes ["s!k=v1", "s!k=v2"] =
    [("s", ScopeGrant.filtered [("k", ["v1", "v2"])])] := by decide
example : parse_scopes ["s!"] = [("s", ScopeGrant.ALL)] := by decide
example :
    check_scope ⟨fun _ => none, parse_scopes ["users:servers!server=bar"]⟩
      "users:servers" [("user", "u1"), ("server", "bar")] = CheckResult.httpError 404 := by
  decide

end JupyterHubScopes
